import Mathlib

/-!
Verification of the income-statement aggregation core of the farm_app
backend (src/modules/income/reportsService.ts and its controller).

The repository contains two variants of `getIncomeStatementService`: one
filtering by a month token, the other by an explicit date range.  Both
share the aggregation core verbatim; per the spec they form one filter
model, so the embedding takes an input that carries an optional month
token, optional date-range bounds and an optional farm, and builds the
where clauses exactly as the respective variants do.

Monetary amounts are embedded as `Int`.  Date values stored on records
are embedded as `Int` timestamps; input dates stay strings (they appear
verbatim in the period label) and an arbitrary parse function
`parse : String → Int` models the JavaScript `new Date` conversion.
The Prisma store is embedded two ways: a `StoreBackend` of fallible
query functions (each returns `Except Unit _`, modelling a query that
may throw), and a concrete `Store` of record lists whose backend never
fails and computes the aggregate / group-by queries by filtering.
-/

namespace FarmApp

/-- Egg-sale record, with the columns the aggregator queries touch. -/
structure EggSale where
  month : String
  farm : String
  saleDate : Int
  amountReceived : Int
  deriving Repr, DecidableEq

/-- Expense record, with the columns the aggregator queries touch. -/
structure Expense where
  month : String
  farm : String
  expenseDate : Int
  head : String
  expenseCost : Int
  deriving Repr, DecidableEq

/-- Filter input of the service; `none` models an absent (or falsy) field. -/
structure IncomeStatementInput where
  month : Option String := none
  startDate : Option String := none
  endDate : Option String := none
  farm : Option String := none
  deriving Repr, DecidableEq

/-- Where clause built for the egg-sale aggregate query. -/
structure EggSaleWhere where
  month : Option String
  farm : Option String
  saleDateGte : Option Int
  saleDateLte : Option Int
  deriving Repr, DecidableEq

/-- Where clause built for the expense group-by queries; `headIn` models
the `head: { in: ... }` restriction added per query. -/
structure ExpenseWhere where
  month : Option String
  farm : Option String
  expenseDateGte : Option Int
  expenseDateLte : Option Int
  headIn : Option (List String)
  deriving Repr, DecidableEq

/-- Where clause the service builds for egg sales: month and farm on exact
match when given, and each date bound independently when given. -/
def buildEggSaleWhere (parse : String → Int) (i : IncomeStatementInput) :
    EggSaleWhere :=
  { month := i.month
    farm := i.farm
    saleDateGte := i.startDate.map parse
    saleDateLte := i.endDate.map parse }

/-- Where clause the service builds for expenses, before a head
restriction is added. -/
def buildExpenseWhere (parse : String → Int) (i : IncomeStatementInput) :
    ExpenseWhere :=
  { month := i.month
    farm := i.farm
    expenseDateGte := i.startDate.map parse
    expenseDateLte := i.endDate.map parse
    headIn := none }

/-- Prisma semantics of the egg-sale where clause on one record: every
present condition must hold, an absent condition always holds. -/
def EggSaleWhere.matchesRow (w : EggSaleWhere) (r : EggSale) : Bool :=
  w.month.all (fun m => r.month == m) &&
  w.farm.all (fun f => r.farm == f) &&
  w.saleDateGte.all (fun d => decide (d ≤ r.saleDate)) &&
  w.saleDateLte.all (fun d => decide (r.saleDate ≤ d))

/-- Prisma semantics of the expense where clause on one record. -/
def ExpenseWhere.matchesRow (w : ExpenseWhere) (r : Expense) : Bool :=
  w.month.all (fun m => r.month == m) &&
  w.farm.all (fun f => r.farm == f) &&
  w.expenseDateGte.all (fun d => decide (d ≤ r.expenseDate)) &&
  w.expenseDateLte.all (fun d => decide (r.expenseDate ≤ d)) &&
  w.headIn.all (fun hs => hs.contains r.head)

/-- One row of a grouped expense query result: a head together with the
summed cost of its group (`none` models a SQL NULL sum). -/
structure ExpenseGroup where
  head : String
  sumCost : Option Int
  deriving Repr, DecidableEq

/-- Sum of the expense costs of a list of rows. -/
def sumExpenseCosts (rows : List Expense) : Int :=
  (rows.map (fun r => r.expenseCost)).sum

/-- Model of the group-by query: one group per distinct head occurring in
the rows, carrying the sum of that head's costs. -/
def groupByHead (rows : List Expense) : List ExpenseGroup :=
  ((rows.map (fun r => r.head)).dedup).map
    (fun h =>
      { head := h
        sumCost := some (sumExpenseCosts (rows.filter (fun r => r.head == h))) })

/-- Model of the aggregate sum query: Prisma returns a NULL sum when no
row matches. -/
def aggregateAmountReceived (rows : List EggSale) : Option Int :=
  match rows with
  | [] => none
  | _ :: _ => some ((rows.map (fun r => r.amountReceived)).sum)

/-- The three read capabilities the service consumes, each fallible. -/
structure StoreBackend where
  aggregateEggSales : EggSaleWhere → Except Unit (Option Int)
  groupExpensesByHead : ExpenseWhere → Except Unit (List ExpenseGroup)

/-- A concrete store snapshot: the two tables the aggregator reads. -/
structure Store where
  eggSales : List EggSale
  expenses : List Expense
  deriving Repr, DecidableEq

/-- Backend of a healthy store: queries never fail and are computed by
filtering the record lists. -/
def Store.backend (s : Store) : StoreBackend where
  aggregateEggSales w :=
    Except.ok (aggregateAmountReceived (s.eggSales.filter w.matchesRow))
  groupExpensesByHead w :=
    Except.ok (groupByHead (s.expenses.filter w.matchesRow))

/-- The four COGS heads of the service. -/
def cogsHeads : List String := ["CHICKEN", "FEED", "MEDICINE", "VACCINE"]

/-- The twelve operating-expense heads of the service. -/
def opExHeads : List String :=
  ["RENT", "UTILITIES", "SALARIES_PAYMENTS", "MESS", "POWER_ELECTRIC",
   "POL", "PACKING_MATERIAL", "REPAIR_MAINTENANCE", "OFFICE_EXPENSES",
   "MEETING_REFRESHMENT", "TRAVELLING_LOGISTICS", "MISCELLANEOUS"]

/-- COGS bucket of the income statement. -/
structure Cogs where
  chicken : Int
  feed : Int
  medicine : Int
  vaccine : Int
  total : Int
  deriving Repr, DecidableEq

/-- Zero-initialised COGS bucket. -/
def initCogs : Cogs :=
  { chicken := 0, feed := 0, medicine := 0, vaccine := 0, total := 0 }

/-- One iteration of the COGS forEach loop: assign the named subfield by
the switch on the head, then add the cost to the running total. -/
def applyCogsGroup (c : Cogs) (g : ExpenseGroup) : Cogs :=
  let cost := g.sumCost.getD 0
  let c1 :=
    if g.head = "CHICKEN" then { c with chicken := cost }
    else if g.head = "FEED" then { c with feed := cost }
    else if g.head = "MEDICINE" then { c with medicine := cost }
    else if g.head = "VACCINE" then { c with vaccine := cost }
    else c
  { c1 with total := c1.total + cost }

/-- The COGS forEach loop over the grouped query result. -/
def foldCogs (groups : List ExpenseGroup) : Cogs :=
  groups.foldl applyCogsGroup initCogs

/-- Operating-expense bucket of the income statement. -/
structure OperatingExpenses where
  rent : Int
  utilities : Int
  salariesPayments : Int
  mess : Int
  powerElectric : Int
  pol : Int
  packingMaterial : Int
  repairMaintenance : Int
  officeExpenses : Int
  meetingRefreshment : Int
  travellingLogistics : Int
  miscellaneous : Int
  total : Int
  deriving Repr, DecidableEq

/-- Zero-initialised operating-expense bucket. -/
def initOpEx : OperatingExpenses :=
  { rent := 0, utilities := 0, salariesPayments := 0, mess := 0
    powerElectric := 0, pol := 0, packingMaterial := 0
    repairMaintenance := 0, officeExpenses := 0, meetingRefreshment := 0
    travellingLogistics := 0, miscellaneous := 0, total := 0 }

/-- The switch statement of the operating-expense forEach loop: assign
the named subfield selected by the head, fall through otherwise. -/
def opExSwitchAssign (c : OperatingExpenses) (g : ExpenseGroup) :
    OperatingExpenses :=
  let cost := g.sumCost.getD 0
  if g.head = "RENT" then { c with rent := cost }
  else if g.head = "UTILITIES" then { c with utilities := cost }
  else if g.head = "SALARIES_PAYMENTS" then { c with salariesPayments := cost }
  else if g.head = "MESS" then { c with mess := cost }
  else if g.head = "POWER_ELECTRIC" then { c with powerElectric := cost }
  else if g.head = "POL" then { c with pol := cost }
  else if g.head = "PACKING_MATERIAL" then { c with packingMaterial := cost }
  else if g.head = "REPAIR_MAINTENANCE" then { c with repairMaintenance := cost }
  else if g.head = "OFFICE_EXPENSES" then { c with officeExpenses := cost }
  else if g.head = "MEETING_REFRESHMENT" then { c with meetingRefreshment := cost }
  else if g.head = "TRAVELLING_LOGISTICS" then { c with travellingLogistics := cost }
  else if g.head = "MISCELLANEOUS" then { c with miscellaneous := cost }
  else c

/-- One iteration of the operating-expense forEach loop: run the
switch, then add the cost to the running total. -/
def applyOpExGroup (c : OperatingExpenses) (g : ExpenseGroup) :
    OperatingExpenses :=
  let cost := g.sumCost.getD 0
  let c1 := opExSwitchAssign c g
  { c1 with total := c1.total + cost }

/-- The operating-expense forEach loop over the grouped query result. -/
def foldOpEx (groups : List ExpenseGroup) : OperatingExpenses :=
  groups.foldl applyOpExGroup initOpEx

/-- Sum of the four named COGS subfields. -/
def Cogs.subTotal (c : Cogs) : Int :=
  c.chicken + c.feed + c.medicine + c.vaccine

/-- Named COGS subfield selected by a head, 0 for a head outside the
switch. -/
def cogsField (h : String) (c : Cogs) : Int :=
  if h = "CHICKEN" then c.chicken
  else if h = "FEED" then c.feed
  else if h = "MEDICINE" then c.medicine
  else if h = "VACCINE" then c.vaccine
  else 0

/-- Sum of the twelve named operating-expense subfields. -/
def OperatingExpenses.subTotal (c : OperatingExpenses) : Int :=
  c.rent + c.utilities + c.salariesPayments + c.mess + c.powerElectric +
  c.pol + c.packingMaterial + c.repairMaintenance + c.officeExpenses +
  c.meetingRefreshment + c.travellingLogistics + c.miscellaneous

/-- Named operating-expense subfield selected by a head, 0 for a head
outside the switch. -/
def opExField (h : String) (c : OperatingExpenses) : Int :=
  if h = "RENT" then c.rent
  else if h = "UTILITIES" then c.utilities
  else if h = "SALARIES_PAYMENTS" then c.salariesPayments
  else if h = "MESS" then c.mess
  else if h = "POWER_ELECTRIC" then c.powerElectric
  else if h = "POL" then c.pol
  else if h = "PACKING_MATERIAL" then c.packingMaterial
  else if h = "REPAIR_MAINTENANCE" then c.repairMaintenance
  else if h = "OFFICE_EXPENSES" then c.officeExpenses
  else if h = "MEETING_REFRESHMENT" then c.meetingRefreshment
  else if h = "TRAVELLING_LOGISTICS" then c.travellingLogistics
  else if h = "MISCELLANEOUS" then c.miscellaneous
  else 0

/-- The income-statement payload returned on success. -/
structure IncomeStatementResponse where
  period : String
  grossRevenue : Int
  otherIncome : Int
  totalRevenue : Int
  cogs : Cogs
  operatingExpenses : OperatingExpenses
  totalExpenses : Int
  netIncome : Int
  notes : Option String
  deriving Repr, DecidableEq

/-- Envelope returned by the service. -/
structure ServiceResult where
  statusCode : Nat
  message : String
  data : Option IncomeStatementResponse
  deriving Repr, DecidableEq

/-- Period label: the month variant labels `Month: <token>` or `All
time`; the range variant labels `From <start|earliest> to <end|latest>`
when a bound is present, else `All time`. -/
def periodLabel (i : IncomeStatementInput) : String :=
  match i.month with
  | some m => "Month: " ++ m
  | none =>
    if i.startDate.isSome || i.endDate.isSome then
      "From " ++ i.startDate.getD "earliest" ++ " to " ++ i.endDate.getD "latest"
    else "All time"

/-- Body of the try block after the three queries returned: derive every
field of the statement. -/
def computeStatement (i : IncomeStatementInput) (eggAgg : Option Int)
    (cogsGroups opGroups : List ExpenseGroup) : IncomeStatementResponse :=
  let grossRevenue := eggAgg.getD 0
  let otherIncome : Int := 0
  let totalRevenue := grossRevenue + otherIncome
  let cogs := foldCogs cogsGroups
  let operatingExpenses := foldOpEx opGroups
  let totalExpenses := cogs.total + operatingExpenses.total
  let netIncome := totalRevenue - totalExpenses
  { period := periodLabel i
    grossRevenue := grossRevenue
    otherIncome := otherIncome
    totalRevenue := totalRevenue
    cogs := cogs
    operatingExpenses := operatingExpenses
    totalExpenses := totalExpenses
    netIncome := netIncome
    notes := some (if netIncome ≥ 0 then "Profitable" else "Loss") }

/-- Result of the catch branch. -/
def failureResult : ServiceResult :=
  { statusCode := 500
    message := "Failed to generate income statement"
    data := none }

/-- The service: build the where clauses, run the three queries in
order (any query failure is caught and becomes `failureResult`), then
assemble the statement. -/
def getIncomeStatementService (parse : String → Int) (b : StoreBackend)
    (input : IncomeStatementInput) : ServiceResult :=
  let eggSaleWhere := buildEggSaleWhere parse input
  let expenseWhere := buildExpenseWhere parse input
  match b.aggregateEggSales eggSaleWhere with
  | Except.error _ => failureResult
  | Except.ok eggAgg =>
    match b.groupExpensesByHead { expenseWhere with headIn := some cogsHeads } with
    | Except.error _ => failureResult
    | Except.ok cogsGroups =>
      match b.groupExpensesByHead { expenseWhere with headIn := some opExHeads } with
      | Except.error _ => failureResult
      | Except.ok opGroups =>
        { statusCode := 200
          message := "Income statement generated"
          data := some (computeStatement input eggAgg cogsGroups opGroups) }

/-- Keys of the JSON body the controller sends: always `message`, and
`data` exactly when the service data is non-null (the conditional
spread). -/
def controllerBodyKeys (r : ServiceResult) : List String :=
  "message" :: (match r.data with
    | some _ => ["data"]
    | none => [])

/-! ### Helper lemmas about the service -/

/-- Success inversion: a non-null data field can only come from the
final branch, with all three queries returning ok. -/
theorem service_data_some (parse : String → Int) (b : StoreBackend)
    (input : IncomeStatementInput) (stmt : IncomeStatementResponse)
    (h : (getIncomeStatementService parse b input).data = some stmt) :
    ∃ eggAgg cogsGroups opGroups,
      b.aggregateEggSales (buildEggSaleWhere parse input) = Except.ok eggAgg ∧
      b.groupExpensesByHead
        { buildExpenseWhere parse input with headIn := some cogsHeads } =
          Except.ok cogsGroups ∧
      b.groupExpensesByHead
        { buildExpenseWhere parse input with headIn := some opExHeads } =
          Except.ok opGroups ∧
      stmt = computeStatement input eggAgg cogsGroups opGroups := by
  simp only [getIncomeStatementService] at h
  split at h
  · exact absurd h (by simp [failureResult])
  · rename_i eggAgg hegg
    split at h
    · exact absurd h (by simp [failureResult])
    · rename_i cogsGroups hcogs
      split at h
      · exact absurd h (by simp [failureResult])
      · rename_i opGroups hop
        simp only [Option.some.injEq] at h
        exact ⟨eggAgg, cogsGroups, opGroups, hegg, hcogs, hop, h.symm⟩

/-- The derived fields of a computed statement satisfy the arithmetic
invariants and the note rule. -/
theorem computeStatement_invariants (i : IncomeStatementInput)
    (eggAgg : Option Int) (cogsGroups opGroups : List ExpenseGroup) :
    let stmt := computeStatement i eggAgg cogsGroups opGroups
    stmt.totalRevenue = stmt.grossRevenue + stmt.otherIncome ∧
    stmt.totalExpenses = stmt.cogs.total + stmt.operatingExpenses.total ∧
    stmt.netIncome = stmt.totalRevenue - stmt.totalExpenses ∧
    (stmt.notes = some "Profitable" ↔ stmt.netIncome ≥ 0) ∧
    (stmt.netIncome < 0 → stmt.notes = some "Loss") := by
  refine ⟨rfl, rfl, rfl, ?_, ?_⟩ <;> simp only [computeStatement] <;>
    split <;> rename_i hc <;> simp_all

/-! ### Claim theorems over the abstract backend -/

/-- C1: whenever the service succeeds, the returned statement satisfies
totalRevenue = grossRevenue + otherIncome,
totalExpenses = cogs.total + operatingExpenses.total,
netIncome = totalRevenue - totalExpenses, and the note is "Profitable"
exactly when netIncome is nonnegative, else "Loss". -/
theorem incomeStatement_arithmetic_invariants (parse : String → Int)
    (b : StoreBackend) (input : IncomeStatementInput)
    (stmt : IncomeStatementResponse)
    (h : (getIncomeStatementService parse b input).data = some stmt) :
    stmt.totalRevenue = stmt.grossRevenue + stmt.otherIncome ∧
    stmt.totalExpenses = stmt.cogs.total + stmt.operatingExpenses.total ∧
    stmt.netIncome = stmt.totalRevenue - stmt.totalExpenses ∧
    (stmt.notes = some "Profitable" ↔ stmt.netIncome ≥ 0) ∧
    (stmt.netIncome < 0 → stmt.notes = some "Loss") := by
  obtain ⟨eggAgg, cogsGroups, opGroups, _, _, _, hstmt⟩ :=
    service_data_some parse b input stmt h
  subst hstmt
  exact computeStatement_invariants input eggAgg cogsGroups opGroups

/-- C4: any query error yields exactly the 500/fixed-message/null
result, and otherwise the service returns 200 with a populated
statement; in all cases the output is one of these two shapes, so no
exception escapes and no partial statement is returned. -/
theorem service_failure_semantics (parse : String → Int) (b : StoreBackend)
    (input : IncomeStatementInput) :
    (((∃ e, b.aggregateEggSales (buildEggSaleWhere parse input) =
        Except.error e) ∨
      (∃ e, b.groupExpensesByHead
        { buildExpenseWhere parse input with headIn := some cogsHeads } =
          Except.error e) ∨
      (∃ e, b.groupExpensesByHead
        { buildExpenseWhere parse input with headIn := some opExHeads } =
          Except.error e)) →
      getIncomeStatementService parse b input = failureResult) ∧
    (getIncomeStatementService parse b input = failureResult ∨
      ∃ stmt, getIncomeStatementService parse b input =
        { statusCode := 200
          message := "Income statement generated"
          data := some stmt }) := by
  constructor
  · intro herr
    simp only [getIncomeStatementService]
    split
    · rfl
    · rename_i eggAgg hegg
      split
      · rfl
      · rename_i cogsGroups hcogs
        split
        · rfl
        · rename_i opGroups hop
          rcases herr with ⟨e, he⟩ | ⟨e, he⟩ | ⟨e, he⟩
          · rw [hegg] at he; exact absurd he (by simp)
          · rw [hcogs] at he; exact absurd he (by simp)
          · rw [hop] at he; exact absurd he (by simp)
  · simp only [getIncomeStatementService]
    split
    · exact Or.inl rfl
    · split
      · exact Or.inl rfl
      · split
        · exact Or.inl rfl
        · exact Or.inr ⟨_, rfl⟩

/-- C7: the period label of a successful report is "Month: <token>"
when a month token was given, "From <start|earliest> to <end|latest>"
when at least one range bound was given, and "All time" otherwise. -/
theorem service_period_label (parse : String → Int) (b : StoreBackend)
    (input : IncomeStatementInput) (stmt : IncomeStatementResponse)
    (h : (getIncomeStatementService parse b input).data = some stmt) :
    (∀ m, input.month = some m → stmt.period = "Month: " ++ m) ∧
    (input.month = none → (input.startDate.isSome ∨ input.endDate.isSome) →
      stmt.period =
        "From " ++ input.startDate.getD "earliest" ++ " to " ++
          input.endDate.getD "latest") ∧
    (input.month = none → input.startDate = none → input.endDate = none →
      stmt.period = "All time") := by
  obtain ⟨eggAgg, cogsGroups, opGroups, _, _, _, hstmt⟩ :=
    service_data_some parse b input stmt h
  have hper : stmt.period = periodLabel input := by rw [hstmt]; rfl
  refine ⟨?_, ?_, ?_⟩
  · intro m hm
    rw [hper]
    simp [periodLabel, hm]
  · intro hm hrange
    rw [hper]
    simp only [periodLabel, hm]
    rw [if_pos (by rcases hrange with h1 | h1 <;> simp [h1])]
  · intro hm hs he
    rw [hper]
    simp [periodLabel, hm, hs, he]

/-- C8: the service output is a function of the query results alone,
so two calls with the same input against backends answering every
query identically produce identical output. -/
theorem service_deterministic (parse : String → Int) (b1 b2 : StoreBackend)
    (input : IncomeStatementInput)
    (hagg : ∀ w, b1.aggregateEggSales w = b2.aggregateEggSales w)
    (hgrp : ∀ w, b1.groupExpensesByHead w = b2.groupExpensesByHead w) :
    getIncomeStatementService parse b1 input =
      getIncomeStatementService parse b2 input := by
  simp only [getIncomeStatementService, hagg, hgrp]

/-- C10: the controller body carries the data key exactly when the
service returned non-null data; on failure the body has only the
message key. -/
theorem controller_omits_null_data (parse : String → Int) (b : StoreBackend)
    (input : IncomeStatementInput) :
    ((getIncomeStatementService parse b input).data = none →
      controllerBodyKeys (getIncomeStatementService parse b input) =
        ["message"]) ∧
    ("data" ∈ controllerBodyKeys (getIncomeStatementService parse b input) ↔
      (getIncomeStatementService parse b input).data ≠ none) := by
  constructor
  · intro hnone
    simp [controllerBodyKeys, hnone]
  · cases hdata : (getIncomeStatementService parse b input).data with
    | none => simp [controllerBodyKeys, hdata]
    | some stmt => simp [controllerBodyKeys, hdata]

/-! ### Concrete backends used by the witnesses -/

/-- Backend whose every query fails, as when the database is down. -/
def failingBackend : StoreBackend where
  aggregateEggSales _ := Except.error ()
  groupExpensesByHead _ := Except.error ()

/-- The empty store snapshot. -/
def emptyStore : Store := { eggSales := [], expenses := [] }

/-- Witness for C1 at a concrete store and empty filter. -/
theorem incomeStatement_arithmetic_invariants_witness :
    ∃ stmt, (getIncomeStatementService (fun _ => 0) emptyStore.backend {}).data =
        some stmt ∧
      (stmt.totalRevenue = stmt.grossRevenue + stmt.otherIncome ∧
        stmt.totalExpenses = stmt.cogs.total + stmt.operatingExpenses.total ∧
        stmt.netIncome = stmt.totalRevenue - stmt.totalExpenses ∧
        (stmt.notes = some "Profitable" ↔ stmt.netIncome ≥ 0) ∧
        (stmt.netIncome < 0 → stmt.notes = some "Loss")) :=
  ⟨computeStatement {} none [] [], by decide,
    incomeStatement_arithmetic_invariants (fun _ => 0) emptyStore.backend {}
      (computeStatement {} none [] []) (by decide)⟩

/-- Witness for C4: with the failing backend the service returns the
fixed failure result. -/
theorem service_failure_semantics_witness :
    getIncomeStatementService (fun _ => 0) failingBackend {} = failureResult :=
  (service_failure_semantics (fun _ => 0) failingBackend {}).1
    (Or.inl ⟨(), rfl⟩)

/-- Witness for C7 at a concrete range input. -/
theorem service_period_label_witness :
    (getIncomeStatementService (fun _ => 0) emptyStore.backend
        { startDate := some "2026-01-01" }).data =
      some (computeStatement { startDate := some "2026-01-01" } none [] []) ∧
    (computeStatement { startDate := some "2026-01-01" } none [] []).period =
      "From 2026-01-01 to latest" :=
  ⟨by decide,
    (service_period_label (fun _ => 0) emptyStore.backend
        { startDate := some "2026-01-01" }
        (computeStatement { startDate := some "2026-01-01" } none [] [])
        (by decide)).2.1 rfl (Or.inl rfl)⟩

/-- Witness for C8 at concrete equal backends. -/
theorem service_deterministic_witness :
    getIncomeStatementService (fun _ => 0) emptyStore.backend {} =
      getIncomeStatementService (fun _ => 0) emptyStore.backend {} :=
  service_deterministic (fun _ => 0) emptyStore.backend emptyStore.backend {}
    (fun _ => rfl) (fun _ => rfl)

/-- Witness for C10 at the failing backend: only the message key. -/
theorem controller_omits_null_data_witness :
    controllerBodyKeys (getIncomeStatementService (fun _ => 0) failingBackend {}) =
      ["message"] :=
  (controller_omits_null_data (fun _ => 0) failingBackend {}).1 rfl

/-! ### Loop invariants of the COGS fold -/

/-- Applying a group for a different head leaves a named COGS subfield
unchanged. -/
theorem cogsField_applyCogsGroup_ne (h : String) (g : ExpenseGroup)
    (c : Cogs) (hne : h ≠ g.head) :
    cogsField h (applyCogsGroup c g) = cogsField h c := by
  simp only [applyCogsGroup, cogsField]
  split_ifs <;> simp_all

/-- One COGS loop iteration preserves the total/subfield equation when
the head is one of the four and its subfield is still zero. -/
theorem applyCogsGroup_total_sub (g : ExpenseGroup) (c : Cogs)
    (hmem : g.head ∈ cogsHeads) (hzero : cogsField g.head c = 0)
    (htot : c.total = c.subTotal) :
    (applyCogsGroup c g).total = (applyCogsGroup c g).subTotal := by
  simp only [cogsHeads, List.mem_cons, List.not_mem_nil, or_false] at hmem
  rcases hmem with h1 | h1 | h1 | h1 <;>
    · simp only [cogsField, h1, applyCogsGroup, Cogs.subTotal] at *
      simp_all <;> omega

/-- Folding the loop from an accumulator whose relevant subfields are
untouched and whose total already equals its subfield sum keeps the
equation, provided the group heads are distinct and drawn from the four
COGS heads. -/
theorem foldl_applyCogsGroup_total_sub (groups : List ExpenseGroup) :
    ∀ c : Cogs, (∀ g ∈ groups, g.head ∈ cogsHeads) →
    groups.Pairwise (fun g1 g2 => g1.head ≠ g2.head) →
    (∀ g ∈ groups, cogsField g.head c = 0) →
    c.total = c.subTotal →
    (groups.foldl applyCogsGroup c).total =
      (groups.foldl applyCogsGroup c).subTotal := by
  induction groups with
  | nil => intro c _ _ _ htot; exact htot
  | cons g gs ih =>
    intro c hmem hpw hzero htot
    rw [List.foldl_cons]
    refine ih (applyCogsGroup c g) (fun g1 hg1 => hmem g1 (List.mem_cons_of_mem g hg1))
      (List.Pairwise.of_cons hpw) ?_ ?_
    · intro g1 hg1
      have hne : g1.head ≠ g.head :=
        (List.pairwise_cons.mp hpw).1 g1 hg1 |>.symm
      rw [cogsField_applyCogsGroup_ne g1.head g c hne]
      exact hzero g1 (List.mem_cons_of_mem g hg1)
    · exact applyCogsGroup_total_sub g c (hmem g (List.mem_cons_self g gs))
        (hzero g (List.mem_cons_self g gs)) htot

/-- Every named subfield of the zero-initialised COGS bucket is 0. -/
theorem cogsField_initCogs (h : String) : cogsField h initCogs = 0 := by
  simp only [cogsField, initCogs]
  split_ifs <;> rfl

/-- Total of the COGS fold equals the subfield sum whenever the group
heads are distinct and drawn from the four COGS heads. -/
theorem foldCogs_total_sub (groups : List ExpenseGroup)
    (hmem : ∀ g ∈ groups, g.head ∈ cogsHeads)
    (hpw : groups.Pairwise (fun g1 g2 => g1.head ≠ g2.head)) :
    (foldCogs groups).total = (foldCogs groups).subTotal :=
  foldl_applyCogsGroup_total_sub groups initCogs hmem hpw
    (fun g _ => cogsField_initCogs g.head) rfl

/-! ### Loop invariants of the operating-expense fold -/

/-- The named subfields of one loop iteration are those of its switch;
only the total differs. -/
theorem opExField_applyOpExGroup (h : String) (g : ExpenseGroup)
    (c : OperatingExpenses) :
    opExField h (applyOpExGroup c g) = opExField h (opExSwitchAssign c g) := rfl

/-- The switch never touches the running total. -/
theorem opExSwitchAssign_total (c : OperatingExpenses) (g : ExpenseGroup) :
    (opExSwitchAssign c g).total = c.total := by
  simp only [opExSwitchAssign, apply_ite OperatingExpenses.total, ite_self]

/-- One loop iteration adds the group cost to the running total. -/
theorem applyOpExGroup_total (c : OperatingExpenses) (g : ExpenseGroup) :
    (applyOpExGroup c g).total = c.total + g.sumCost.getD 0 := by
  have h := opExSwitchAssign_total c g
  simp only [applyOpExGroup]
  rw [h]

/-- The subfield sum of one loop iteration is that of its switch. -/
theorem applyOpExGroup_subTotal (c : OperatingExpenses) (g : ExpenseGroup) :
    (applyOpExGroup c g).subTotal = (opExSwitchAssign c g).subTotal := rfl

/-- The switch replaces the subfield of its head by the group cost in
the subfield sum, when the head is one of the twelve. -/
theorem opExSwitchAssign_subTotal (c : OperatingExpenses) (g : ExpenseGroup)
    (hmem : g.head ∈ opExHeads) :
    (opExSwitchAssign c g).subTotal =
      c.subTotal - opExField g.head c + g.sumCost.getD 0 := by
  simp only [opExHeads, List.mem_cons, List.not_mem_nil, or_false] at hmem
  rcases hmem with h1 | h1 | h1 | h1 | h1 | h1 | h1 | h1 | h1 | h1 | h1 | h1 <;>
    simp [opExSwitchAssign, opExField, OperatingExpenses.subTotal, h1] <;>
    omega

/-- The switch leaves a named operating-expense subfield other than its
head's unchanged. -/
theorem opExField_opExSwitchAssign_ne (h : String) (g : ExpenseGroup)
    (c : OperatingExpenses) (hmem : h ∈ opExHeads) (hne : h ≠ g.head) :
    opExField h (opExSwitchAssign c g) = opExField h c := by
  simp only [opExHeads, List.mem_cons, List.not_mem_nil, or_false] at hmem
  have hgne : ¬ (g.head = h) := fun e => hne e.symm
  rcases hmem with h1 | h1 | h1 | h1 | h1 | h1 | h1 | h1 | h1 | h1 | h1 | h1 <;>
    subst h1 <;>
    simp [opExSwitchAssign, opExField, hgne,
      apply_ite OperatingExpenses.rent, apply_ite OperatingExpenses.utilities,
      apply_ite OperatingExpenses.salariesPayments,
      apply_ite OperatingExpenses.mess,
      apply_ite OperatingExpenses.powerElectric, apply_ite OperatingExpenses.pol,
      apply_ite OperatingExpenses.packingMaterial,
      apply_ite OperatingExpenses.repairMaintenance,
      apply_ite OperatingExpenses.officeExpenses,
      apply_ite OperatingExpenses.meetingRefreshment,
      apply_ite OperatingExpenses.travellingLogistics,
      apply_ite OperatingExpenses.miscellaneous]

/-- Applying a group for a different head leaves a named
operating-expense subfield unchanged, for subfields named by one of the
twelve heads. -/
theorem opExField_applyOpExGroup_ne (h : String) (g : ExpenseGroup)
    (c : OperatingExpenses) (hmem : h ∈ opExHeads) (hne : h ≠ g.head) :
    opExField h (applyOpExGroup c g) = opExField h c := by
  rw [opExField_applyOpExGroup]
  exact opExField_opExSwitchAssign_ne h g c hmem hne

/-- One operating-expense loop iteration preserves the total/subfield
equation when the head is one of the twelve and its subfield is still
zero. -/
theorem applyOpExGroup_total_sub (g : ExpenseGroup) (c : OperatingExpenses)
    (hmem : g.head ∈ opExHeads) (hzero : opExField g.head c = 0)
    (htot : c.total = c.subTotal) :
    (applyOpExGroup c g).total = (applyOpExGroup c g).subTotal := by
  rw [applyOpExGroup_total, applyOpExGroup_subTotal,
    opExSwitchAssign_subTotal c g hmem, hzero, htot]
  ring

/-- Folding the operating-expense loop keeps the total/subfield
equation under distinct heads drawn from the twelve OpEx heads. -/
theorem foldl_applyOpExGroup_total_sub (groups : List ExpenseGroup) :
    ∀ c : OperatingExpenses, (∀ g ∈ groups, g.head ∈ opExHeads) →
    groups.Pairwise (fun g1 g2 => g1.head ≠ g2.head) →
    (∀ g ∈ groups, opExField g.head c = 0) →
    c.total = c.subTotal →
    (groups.foldl applyOpExGroup c).total =
      (groups.foldl applyOpExGroup c).subTotal := by
  induction groups with
  | nil => intro c _ _ _ htot; exact htot
  | cons g gs ih =>
    intro c hmem hpw hzero htot
    rw [List.foldl_cons]
    refine ih (applyOpExGroup c g) (fun g1 hg1 => hmem g1 (List.mem_cons_of_mem g hg1))
      (List.Pairwise.of_cons hpw) ?_ ?_
    · intro g1 hg1
      have hne : g1.head ≠ g.head :=
        (List.pairwise_cons.mp hpw).1 g1 hg1 |>.symm
      rw [opExField_applyOpExGroup_ne g1.head g c
        (hmem g1 (List.mem_cons_of_mem g hg1)) hne]
      exact hzero g1 (List.mem_cons_of_mem g hg1)
    · exact applyOpExGroup_total_sub g c (hmem g (List.mem_cons_self g gs))
        (hzero g (List.mem_cons_self g gs)) htot

/-- Every named subfield of the zero-initialised OpEx bucket is 0. -/
theorem opExField_initOpEx (h : String) : opExField h initOpEx = 0 := by
  simp [opExField, initOpEx]

/-- Total of the operating-expense fold equals the subfield sum
whenever the group heads are distinct and drawn from the twelve OpEx
heads. -/
theorem foldOpEx_total_sub (groups : List ExpenseGroup)
    (hmem : ∀ g ∈ groups, g.head ∈ opExHeads)
    (hpw : groups.Pairwise (fun g1 g2 => g1.head ≠ g2.head)) :
    (foldOpEx groups).total = (foldOpEx groups).subTotal :=
  foldl_applyOpExGroup_total_sub groups initOpEx hmem hpw
    (fun g _ => opExField_initOpEx g.head) rfl

/-! ### Well-formedness of the grouped query results -/

/-- Every head of the grouped result is the head of some grouped row. -/
theorem mem_groupByHead_head (rows : List Expense) (g : ExpenseGroup)
    (hg : g ∈ groupByHead rows) : ∃ r ∈ rows, r.head = g.head := by
  simp only [groupByHead, List.mem_map] at hg
  obtain ⟨h, hh, rfl⟩ := hg
  rw [List.mem_dedup] at hh
  obtain ⟨r, hr, rfl⟩ := List.mem_map.mp hh
  exact ⟨r, hr, rfl⟩

/-- The grouped result has one group per head: heads are pairwise
distinct. -/
theorem groupByHead_pairwise (rows : List Expense) :
    (groupByHead rows).Pairwise (fun g1 g2 => g1.head ≠ g2.head) := by
  unfold groupByHead
  have hnd : List.Nodup ((rows.map (fun r => r.head)).dedup) :=
    List.nodup_dedup (rows.map (fun r => r.head))
  exact List.pairwise_map.mpr (List.Pairwise.imp (fun hab => hab) hnd)

/-- Rows surviving a filter whose clause pins the heads have their
head in the pinned list. -/
theorem head_mem_of_mem_filter (w : ExpenseWhere) (hs : List String)
    (hw : w.headIn = some hs) (l : List Expense) (r : Expense)
    (hr : r ∈ l.filter w.matchesRow) : r.head ∈ hs := by
  rw [List.mem_filter] at hr
  have hm := hr.2
  simp only [ExpenseWhere.matchesRow, hw, Bool.and_eq_true] at hm
  simpa using hm.2

/-- Groups computed by a head-pinned query draw their heads from the
pinned list. -/
theorem groupByHead_filter_heads (w : ExpenseWhere) (hs : List String)
    (hw : w.headIn = some hs) (l : List Expense) (g : ExpenseGroup)
    (hg : g ∈ groupByHead (l.filter w.matchesRow)) : g.head ∈ hs := by
  obtain ⟨r, hr, hrg⟩ := mem_groupByHead_head _ g hg
  rw [← hrg]
  exact head_mem_of_mem_filter w hs hw l r hr

/-- C2: in every successful output computed from a store snapshot, the
COGS total equals the sum of its four subfields and the operating
expense total equals the sum of its twelve subfields. -/
theorem bucket_totals_equal_subfield_sums (parse : String → Int) (s : Store)
    (input : IncomeStatementInput) (stmt : IncomeStatementResponse)
    (h : (getIncomeStatementService parse s.backend input).data = some stmt) :
    stmt.cogs.total =
      stmt.cogs.chicken + stmt.cogs.feed + stmt.cogs.medicine +
        stmt.cogs.vaccine ∧
    stmt.operatingExpenses.total =
      stmt.operatingExpenses.rent + stmt.operatingExpenses.utilities +
        stmt.operatingExpenses.salariesPayments + stmt.operatingExpenses.mess +
        stmt.operatingExpenses.powerElectric + stmt.operatingExpenses.pol +
        stmt.operatingExpenses.packingMaterial +
        stmt.operatingExpenses.repairMaintenance +
        stmt.operatingExpenses.officeExpenses +
        stmt.operatingExpenses.meetingRefreshment +
        stmt.operatingExpenses.travellingLogistics +
        stmt.operatingExpenses.miscellaneous := by
  obtain ⟨eggAgg, cogsGroups, opGroups, _, hcogs, hop, hstmt⟩ :=
    service_data_some parse s.backend input stmt h
  simp only [Store.backend, Except.ok.injEq] at hcogs hop
  have hc1 : stmt.cogs = foldCogs cogsGroups := by rw [hstmt]; rfl
  have ho1 : stmt.operatingExpenses = foldOpEx opGroups := by rw [hstmt]; rfl
  constructor
  · rw [hc1]
    exact foldCogs_total_sub cogsGroups
      (fun g hg => groupByHead_filter_heads _ cogsHeads rfl s.expenses g
        (hcogs ▸ hg))
      (hcogs ▸ groupByHead_pairwise _)
  · rw [ho1]
    exact foldOpEx_total_sub opGroups
      (fun g hg => groupByHead_filter_heads _ opExHeads rfl s.expenses g
        (hop ▸ hg))
      (hop ▸ groupByHead_pairwise _)

/-- Witness for C2 at a concrete store with one expense per bucket. -/
theorem bucket_totals_equal_subfield_sums_witness :
    ∃ stmt,
      (getIncomeStatementService (fun _ => 0)
          (Store.backend
            { eggSales := []
              expenses :=
                [{ month := "Dec", farm := "MATITAL", expenseDate := 3,
                   head := "FEED", expenseCost := 7 },
                 { month := "Dec", farm := "MATITAL", expenseDate := 4,
                   head := "RENT", expenseCost := 9 }] }) {}).data = some stmt ∧
      stmt.cogs.total =
        stmt.cogs.chicken + stmt.cogs.feed + stmt.cogs.medicine +
          stmt.cogs.vaccine := by
  refine ⟨_, rfl, ?_⟩
  exact (bucket_totals_equal_subfield_sums (fun _ => 0)
    { eggSales := []
      expenses :=
        [{ month := "Dec", farm := "MATITAL", expenseDate := 3,
           head := "FEED", expenseCost := 7 },
         { month := "Dec", farm := "MATITAL", expenseDate := 4,
           head := "RENT", expenseCost := 9 }] } {} _ rfl).1

/-- C9: a duplicated head in a group result makes the switch overwrite
the subfield with the later sum while the total accumulates both, so
the total/subfield equation relies on the query returning pairwise
distinct heads (drawn, as the queries ensure, from the fixed lists). -/
theorem duplicate_heads_break_subfield_invariant :
    (foldCogs [{ head := "FEED", sumCost := some 2 },
               { head := "FEED", sumCost := some 3 }] =
      { chicken := 0, feed := 3, medicine := 0, vaccine := 0, total := 5 }) ∧
    (∀ groups : List ExpenseGroup, (∀ g ∈ groups, g.head ∈ cogsHeads) →
      groups.Pairwise (fun g1 g2 => g1.head ≠ g2.head) →
      (foldCogs groups).total =
        (foldCogs groups).chicken + (foldCogs groups).feed +
          (foldCogs groups).medicine + (foldCogs groups).vaccine) ∧
    (∀ groups : List ExpenseGroup, (∀ g ∈ groups, g.head ∈ opExHeads) →
      groups.Pairwise (fun g1 g2 => g1.head ≠ g2.head) →
      (foldOpEx groups).total = (foldOpEx groups).subTotal) := by
  refine ⟨by decide, ?_, ?_⟩
  · exact fun groups hmem hpw => foldCogs_total_sub groups hmem hpw
  · exact fun groups hmem hpw => foldOpEx_total_sub groups hmem hpw

/-- Witness for C9 applying the distinct-heads part at a concrete
group list. -/
theorem duplicate_heads_break_subfield_invariant_witness :
    (foldCogs [{ head := "FEED", sumCost := some 2 }]).total =
      (foldCogs [{ head := "FEED", sumCost := some 2 }]).chicken +
        (foldCogs [{ head := "FEED", sumCost := some 2 }]).feed +
        (foldCogs [{ head := "FEED", sumCost := some 2 }]).medicine +
        (foldCogs [{ head := "FEED", sumCost := some 2 }]).vaccine :=
  duplicate_heads_break_subfield_invariant.2.1
    [{ head := "FEED", sumCost := some 2 }] (by decide) (by decide)

/-! ### Uncategorized heads (C3) -/

/-- A row whose head is outside the pinned list fails the pinned
where clause. -/
theorem matchesRow_false_of_head_not_mem (w : ExpenseWhere) (hs : List String)
    (hw : w.headIn = some hs) (e : Expense) (he : e.head ∉ hs) :
    w.matchesRow e = false := by
  simp [ExpenseWhere.matchesRow, hw, he]

/-- C3: an expense whose head lies in neither the COGS list nor the
OpEx list leaves the entire service output unchanged, so it
contributes to neither bucket total and totalExpenses excludes its
cost. -/
theorem uncategorized_head_excluded (parse : String → Int) (s : Store)
    (input : IncomeStatementInput) (e : Expense)
    (hc : e.head ∉ cogsHeads) (ho : e.head ∉ opExHeads) :
    getIncomeStatementService parse
        (Store.backend { s with expenses := e :: s.expenses }) input =
      getIncomeStatementService parse (Store.backend s) input := by
  have hw1 : ExpenseWhere.matchesRow
      { buildExpenseWhere parse input with headIn := some cogsHeads } e =
        false :=
    matchesRow_false_of_head_not_mem _ cogsHeads rfl e hc
  have hw2 : ExpenseWhere.matchesRow
      { buildExpenseWhere parse input with headIn := some opExHeads } e =
        false :=
    matchesRow_false_of_head_not_mem _ opExHeads rfl e ho
  simp only [getIncomeStatementService, Store.backend, List.filter_cons, hw1,
    hw2, Bool.false_eq_true, if_false]

/-- Witness for C3 with a FURNITURE_FIXTURE expense on the empty
store. -/
theorem uncategorized_head_excluded_witness :
    getIncomeStatementService (fun _ => 0)
        (Store.backend
          { eggSales := []
            expenses :=
              [{ month := "Dec", farm := "MATITAL", expenseDate := 3,
                 head := "FURNITURE_FIXTURE", expenseCost := 50 }] }) {} =
      getIncomeStatementService (fun _ => 0) (Store.backend emptyStore) {} :=
  uncategorized_head_excluded (fun _ => 0) emptyStore {}
    { month := "Dec", farm := "MATITAL", expenseDate := 3,
      head := "FURNITURE_FIXTURE", expenseCost := 50 }
    (by decide) (by decide)

/-! ### Period filter semantics (C5) -/

/-- Truth of an optional condition, componentwise. -/
theorem option_all_eq_true_iff {α : Type} (o : Option α) (p : α → Bool) :
    (o.all p = true) ↔ ∀ a, o = some a → p a = true := by
  cases o <;> simp

/-- C5: the built where clauses are exact and exclusive: a month token
filters on exact string equality of the month field, the date bounds
apply independently and inclusively to each table's own date column,
the expense query additionally pins the head list, and a record dated
one past the end bound is excluded. -/
theorem period_filter_semantics (parse : String → Int)
    (input : IncomeStatementInput) (r : EggSale) (x : Expense) :
    ((buildEggSaleWhere parse input).matchesRow r = true ↔
      (∀ m, input.month = some m → r.month = m) ∧
      (∀ f, input.farm = some f → r.farm = f) ∧
      (∀ sd, input.startDate = some sd → parse sd ≤ r.saleDate) ∧
      (∀ ed, input.endDate = some ed → r.saleDate ≤ parse ed)) ∧
    (∀ hs : List String,
      (ExpenseWhere.matchesRow
          { buildExpenseWhere parse input with headIn := some hs } x = true ↔
        (∀ m, input.month = some m → x.month = m) ∧
        (∀ f, input.farm = some f → x.farm = f) ∧
        (∀ sd, input.startDate = some sd → parse sd ≤ x.expenseDate) ∧
        (∀ ed, input.endDate = some ed → x.expenseDate ≤ parse ed) ∧
        x.head ∈ hs)) ∧
    (∀ ed, input.endDate = some ed → r.saleDate = parse ed + 1 →
      (buildEggSaleWhere parse input).matchesRow r = false) ∧
    (∀ ed, input.endDate = some ed → x.expenseDate = parse ed + 1 →
      ∀ hs : List String,
        ExpenseWhere.matchesRow
          { buildExpenseWhere parse input with headIn := some hs } x =
            false) := by
  obtain ⟨m, sd, ed, f⟩ := input
  refine ⟨?_, ?_, ?_, ?_⟩
  · cases m <;> cases sd <;> cases ed <;> cases f <;>
      simp [buildEggSaleWhere, EggSaleWhere.matchesRow, and_assoc]
  · intro hs
    cases m <;> cases sd <;> cases ed <;> cases f <;>
      simp [buildExpenseWhere, ExpenseWhere.matchesRow, and_assoc]
  · intro ed1 hed hdate
    cases m <;> cases sd <;> cases f <;>
      simp_all [buildEggSaleWhere, EggSaleWhere.matchesRow]
  · intro ed1 hed hdate hs
    cases m <;> cases sd <;> cases f <;>
      simp_all [buildExpenseWhere, ExpenseWhere.matchesRow]

/-- Witness for C5: a sale dated one day past the end bound is
excluded. -/
theorem period_filter_semantics_witness :
    (buildEggSaleWhere (fun _ => 31)
        { endDate := some "2026-01-31" }).matchesRow
      { month := "Feb", farm := "MATITAL", saleDate := 32,
        amountReceived := 5 } = false :=
  (period_filter_semantics (fun _ => 31) { endDate := some "2026-01-31" }
      { month := "Feb", farm := "MATITAL", saleDate := 32, amountReceived := 5 }
      { month := "Feb", farm := "MATITAL", expenseDate := 0, head := "FEED",
        expenseCost := 1 }).2.2.1 "2026-01-31" rfl rfl

/-! ### Zero-data reports (C6) -/

/-- Adding a head pin to a clause no row satisfies still excludes
every row. -/
theorem matchesRow_headIn_pin (w : ExpenseWhere) (hs : List String)
    (hbase : w.headIn = none) (x : Expense) (h : w.matchesRow x = false) :
    ExpenseWhere.matchesRow { w with headIn := some hs } x = false := by
  simp only [ExpenseWhere.matchesRow, hbase, Option.all_none, Bool.and_true] at h
  simp [ExpenseWhere.matchesRow, h]

/-- C6: a filter matching no record yields the all-zero report with
note Profitable. -/
theorem zero_data_report (parse : String → Int) (s : Store)
    (input : IncomeStatementInput)
    (hsale : ∀ r ∈ s.eggSales,
      (buildEggSaleWhere parse input).matchesRow r = false)
    (hexp : ∀ x ∈ s.expenses,
      (buildExpenseWhere parse input).matchesRow x = false) :
    getIncomeStatementService parse (Store.backend s) input =
      { statusCode := 200
        message := "Income statement generated"
        data := some
          { period := periodLabel input
            grossRevenue := 0
            otherIncome := 0
            totalRevenue := 0
            cogs := initCogs
            operatingExpenses := initOpEx
            totalExpenses := 0
            netIncome := 0
            notes := some "Profitable" } } := by
  have h1 : s.eggSales.filter (buildEggSaleWhere parse input).matchesRow = [] := by
    rw [List.filter_eq_nil_iff]
    intro r hr
    simp [hsale r hr]
  have h2 : s.expenses.filter (ExpenseWhere.matchesRow
      { buildExpenseWhere parse input with headIn := some cogsHeads }) = [] := by
    rw [List.filter_eq_nil_iff]
    intro x hx
    simp [matchesRow_headIn_pin (buildExpenseWhere parse input) cogsHeads rfl x
      (hexp x hx)]
  have h3 : s.expenses.filter (ExpenseWhere.matchesRow
      { buildExpenseWhere parse input with headIn := some opExHeads }) = [] := by
    rw [List.filter_eq_nil_iff]
    intro x hx
    simp [matchesRow_headIn_pin (buildExpenseWhere parse input) opExHeads rfl x
      (hexp x hx)]
  simp only [getIncomeStatementService, Store.backend, h1, h2, h3]
  simp [computeStatement, aggregateAmountReceived, groupByHead, foldCogs,
    foldOpEx, initCogs, initOpEx]

/-- Witness for C6 at a store whose only records miss the month
filter. -/
theorem zero_data_report_witness :
    getIncomeStatementService (fun _ => 0)
        (Store.backend
          { eggSales := [{ month := "Jan", farm := "MATITAL", saleDate := 1,
                           amountReceived := 10 }]
            expenses := [{ month := "Jan", farm := "MATITAL", expenseDate := 2,
                           head := "FEED", expenseCost := 4 }] })
        { month := some "Dec" } =
      { statusCode := 200
        message := "Income statement generated"
        data := some
          { period := periodLabel { month := some "Dec" }
            grossRevenue := 0
            otherIncome := 0
            totalRevenue := 0
            cogs := initCogs
            operatingExpenses := initOpEx
            totalExpenses := 0
            netIncome := 0
            notes := some "Profitable" } } :=
  zero_data_report (fun _ => 0)
    { eggSales := [{ month := "Jan", farm := "MATITAL", saleDate := 1,
                     amountReceived := 10 }]
      expenses := [{ month := "Jan", farm := "MATITAL", expenseDate := 2,
                     head := "FEED", expenseCost := 4 }] }
    { month := some "Dec" } (by decide) (by decide)

end FarmApp
